import Mathlib

/-!
Verification of the spork / deprecation / transaction-record subsystems of the
CryptoForge Zero node, as a shallow embedding in Lean 4.

Sources embedded:
* `src/src/zeronode/spork.h` — the spork message data model and its content hash.
* `src/src/gtest/test_deprecation.cpp` — behaviour of the deprecation enforcer
  as pinned by its unit tests.
* `src/src/qt/transactionrecord.cpp` — wallet transaction-record decomposition
  and status update.

The implementations of `ProcessSpork` (spork.cpp) and of
`CDeprecation::EnforceNodeDeprecation` (deprecation.cpp) are not part of the
excerpt; those are modelled from the specification, as indicated in the doc
comment of each such definition.
-/

namespace Zero

/-! ## Spork message data model (src/src/zeronode/spork.h) -/

/-- Little-endian byte encoding of a value into `n` bytes, as produced by the
Bitcoin-style serializer for fixed-width integers. -/
def leBytes : Nat → Nat → List Nat
  | 0, _ => []
  | n + 1, v => v % 256 :: leBytes n (v / 256)

/-- Twos-complement reinterpretation of a signed value as an unsigned `w`-bit
value, as the C++ serializer does when writing a signed integer. -/
def toUnsigned (w : Nat) (x : Int) : Nat := (x % ((2 : Int) ^ w)).toNat

/-- Serialization of a C++ `int` (32-bit, little-endian). -/
def ser32 (x : Int) : List Nat := leBytes 4 (toUnsigned 32 x)

/-- Serialization of a C++ `int64_t` (64-bit, little-endian). -/
def ser64 (x : Int) : List Nat := leBytes 8 (toUnsigned 64 x)

/-- Embedding of `CSporkMessage` (spork.h). Signatures are byte lists; the
integer fields keep their C++ names. -/
structure CSporkMessage where
  vchSig : List Nat
  nSporkID : Int
  nValue : Int
  nTimeSigned : Int
deriving DecidableEq, Repr

/-- Byte stream written by `CSporkMessage::GetHash` (spork.h lines 72-79):
the `CHashWriter` receives `nSporkID`, then `nValue`, then `nTimeSigned`,
and nothing else — in particular not `vchSig`. -/
def CSporkMessage.hashStream (m : CSporkMessage) : List Nat :=
  ser32 m.nSporkID ++ ser64 m.nValue ++ ser64 m.nTimeSigned

/-- Embedding of `CSporkMessage::GetHash`: the cryptographic digest (a
black-box function `H`, per the spec crypto primitives are external) applied
to the serialized stream. -/
def CSporkMessage.GetHash (H : List Nat → Nat) (m : CSporkMessage) : Nat :=
  H m.hashStream

/-! ## Spork registry and message processing -/

/-- Association-list lookup: first binding for the key wins (mirrors a C++
`std::map` in which each key has one binding; our update discipline below
inserts at the front, shadowing any stale binding). -/
def alistFind {α β : Type} [DecidableEq α] (k : α) : List (α × β) → Option β
  | [] => none
  | (k₀, v) :: rest => if k₀ = k then some v else alistFind k rest

/-- Dedup key of a spork message: the content hash covers exactly
`(nSporkID, nValue, nTimeSigned)` and excludes the signature, so we model it
by that triple (the digest is injective on contents as far as the registry
logic is concerned). -/
def CSporkMessage.hashKey (m : CSporkMessage) : Int × Int × Int :=
  (m.nSporkID, m.nValue, m.nTimeSigned)

/-- Registry state: the two global maps of spork.h —
`mapSporks` ("all ever seen", keyed by content hash) and
`mapSporksActive` ("current effective value", keyed by spork id). -/
structure SporkRegistry where
  mapSporks : List ((Int × Int × Int) × CSporkMessage)
  mapSporksActive : List (Int × CSporkMessage)
deriving DecidableEq, Repr

/-- Registry at node startup with an empty persisted store. -/
def SporkRegistry.empty : SporkRegistry := ⟨[], []⟩

/-- Outcome of processing one incoming spork message. -/
inductive SporkResult
  | droppedInvalid
  | ignoredDuplicate
  | ignoredStale
  | accepted
deriving DecidableEq, Repr

/-- Modelled from the spec: the body of `ProcessSpork` (spork.cpp) is not in
the excerpt — spork.h line 54 only declares it.  Following spec sections 4.2
and 4.4: verify the signature first (`verify` stands for
`CSporkManager::CheckSignature` against the single authorized per-network
key); if invalid, drop with no state change.  Otherwise dedup by content
hash (`ignoredDuplicate` if already seen); else insert into `mapSporks`,
then overwrite `mapSporksActive` only if strictly newer than the current
entry for that id (an absent entry counts as minus infinity), returning
`accepted` or `ignoredStale` accordingly. -/
def ProcessSpork (verify : CSporkMessage → Bool) (st : SporkRegistry)
    (m : CSporkMessage) : SporkRegistry × SporkResult :=
  if verify m = false then (st, .droppedInvalid)
  else if (alistFind m.hashKey st.mapSporks).isSome then (st, .ignoredDuplicate)
  else
    let seen := (m.hashKey, m) :: st.mapSporks
    match alistFind m.nSporkID st.mapSporksActive with
    | some cur =>
        if cur.nTimeSigned < m.nTimeSigned then
          (⟨seen, (m.nSporkID, m) :: st.mapSporksActive⟩, .accepted)
        else
          (⟨seen, st.mapSporksActive⟩, .ignoredStale)
    | none => (⟨seen, (m.nSporkID, m) :: st.mapSporksActive⟩, .accepted)

/-- Relay decision: per spec section 4.4 a message is relayed to other peers
exactly when it was accepted. -/
def relays (r : SporkResult) : Bool := decide (r = .accepted)

/-- Time signed of the active entry for a spork id, if any. -/
def activeTime (id : Int) (st : SporkRegistry) : Option Int :=
  (alistFind id st.mapSporksActive).map CSporkMessage.nTimeSigned

/-- Order on optional timestamps: `none` (no active entry) is below
everything. -/
def optTimeLE (a b : Option Int) : Bool :=
  match a, b with
  | none, _ => true
  | some _, none => false
  | some x, some y => decide (x ≤ y)

/-- Processing a whole list of incoming messages, left to right. -/
def processSporkList (verify : CSporkMessage → Bool) (st : SporkRegistry)
    (l : List CSporkMessage) : SporkRegistry :=
  l.foldl (fun s m => (ProcessSpork verify s m).1) st

/-- Timestamps of the messages of `l` that come back `accepted` when the list
is processed from state `st`. -/
def acceptedTimes (verify : CSporkMessage → Bool) :
    SporkRegistry → List CSporkMessage → List Int
  | _, [] => []
  | st, m :: rest =>
      let r := ProcessSpork verify st m
      if r.2 = .accepted then m.nTimeSigned :: acceptedTimes verify r.1 rest
      else acceptedTimes verify r.1 rest

/-- Maximum of a list of timestamps (`none` on the empty list). -/
def listMax : List Int → Option Int
  | [] => none
  | x :: xs =>
      match listMax xs with
      | none => some x
      | some y => some (max x y)

/-- Maximum of two optional timestamps. -/
def optMax (a b : Option Int) : Option Int :=
  match a, b with
  | none, b => b
  | some x, none => some x
  | some x, some y => some (max x y)

/-! ## Basic lemmas about the registry model -/

theorem alistFind_cons {α β : Type} [DecidableEq α] (k k₀ : α) (v : β)
    (rest : List (α × β)) :
    alistFind k ((k₀, v) :: rest) = if k₀ = k then some v else alistFind k rest := rfl

theorem alistFind_mem {α β : Type} [DecidableEq α] {k : α} {v : β}
    {l : List (α × β)} (h : alistFind k l = some v) : (k, v) ∈ l := by
  induction l with
  | nil => simp [alistFind] at h
  | cons p rest ih =>
      obtain ⟨k₀, v₀⟩ := p
      rw [alistFind_cons] at h
      by_cases hk : k₀ = k
      · subst hk
        simp at h
        subst h
        exact List.mem_cons_self _ _
      · simp [hk] at h
        exact List.mem_cons_of_mem _ (ih h)

theorem listMax_cons (x : Int) (xs : List Int) :
    listMax (x :: xs) = optMax (some x) (listMax xs) := by
  cases h : listMax xs <;> simp [listMax, optMax, h]

theorem optMax_comm (a b : Option Int) : optMax a b = optMax b a := by
  cases a <;> cases b <;> simp [optMax, max_comm]

theorem optMax_assoc (a b c : Option Int) :
    optMax (optMax a b) c = optMax a (optMax b c) := by
  cases a <;> cases b <;> cases c <;> simp [optMax, max_assoc]

theorem optMax_absorb_left {a : Option Int} {t : Int}
    (h : optTimeLE a (some t) = true) : optMax a (some t) = some t := by
  cases a with
  | none => rfl
  | some x =>
      simp [optTimeLE] at h
      simp [optMax, max_eq_right h]

theorem listMax_eq_none {xs : List Int} (h : listMax xs = none) : xs = [] := by
  cases xs with
  | nil => rfl
  | cons y ys =>
      rw [listMax_cons] at h
      cases hys : listMax ys <;> rw [hys] at h <;> simp [optMax] at h

theorem listMax_le {xs : List Int} {x M : Int} (hx : x ∈ xs)
    (hM : listMax xs = some M) : x ≤ M := by
  induction xs generalizing M with
  | nil => cases hx
  | cons y ys ih =>
      rw [listMax_cons] at hM
      rcases List.mem_cons.mp hx with rfl | hx2
      · cases hys : listMax ys with
        | none => rw [hys] at hM; simp [optMax] at hM; omega
        | some N =>
            rw [hys] at hM; simp [optMax] at hM
            subst hM; exact le_max_left _ _
      · cases hys : listMax ys with
        | none =>
            rw [listMax_eq_none hys] at hx2
            cases hx2
        | some N =>
            rw [hys] at hM; simp [optMax] at hM
            subst hM
            exact le_trans (ih hx2 hys) (le_max_right _ _)

theorem listMax_mem {xs : List Int} {M : Int} (hM : listMax xs = some M) :
    M ∈ xs := by
  induction xs generalizing M with
  | nil => simp [listMax] at hM
  | cons y ys ih =>
      rw [listMax_cons] at hM
      cases hys : listMax ys with
      | none => rw [hys] at hM; simp [optMax] at hM; simp [hM]
      | some N =>
          rw [hys] at hM; simp [optMax] at hM
          rcases max_cases y N with ⟨he, _⟩ | ⟨he, _⟩
          · have hMy : M = y := by rw [← hM, he]
            subst hMy; exact List.mem_cons_self _ _
          · have hMN : M = N := by rw [← hM, he]
            subst hMN; exact List.mem_cons_of_mem _ (ih hys)

theorem listMax_eq_some_of_bounds {xs : List Int} {M : Int} (hmem : M ∈ xs)
    (hub : ∀ x ∈ xs, x ≤ M) : listMax xs = some M := by
  cases hmax : listMax xs with
  | none => rw [listMax_eq_none hmax] at hmem; cases hmem
  | some N =>
      have h1 : M ≤ N := listMax_le hmem hmax
      have h2 : N ≤ M := hub N (listMax_mem hmax)
      rw [le_antisymm h2 h1]

theorem listMax_perm {xs ys : List Int} (h : xs.Perm ys) :
    listMax xs = listMax ys := by
  induction h with
  | nil => rfl
  | cons x _ ih => rw [listMax_cons, listMax_cons, ih]
  | swap x y l =>
      rw [listMax_cons, listMax_cons, listMax_cons, listMax_cons,
        ← optMax_assoc, ← optMax_assoc, optMax_comm (some y) (some x)]
  | trans _ _ ih1 ih2 => rw [ih1, ih2]

/-! ## Step lemmas for ProcessSpork -/

theorem processSpork_invalid {v : CSporkMessage → Bool} {m : CSporkMessage}
    (st : SporkRegistry) (hv : v m = false) :
    ProcessSpork v st m = (st, .droppedInvalid) := by
  simp [ProcessSpork, hv]

theorem processSpork_dup {v : CSporkMessage → Bool} {m : CSporkMessage}
    {st : SporkRegistry} (hv : v m = true)
    (hd : (alistFind m.hashKey st.mapSporks).isSome = true) :
    ProcessSpork v st m = (st, .ignoredDuplicate) := by
  simp [ProcessSpork, hv, hd]

theorem processSpork_fresh_first {v : CSporkMessage → Bool} {m : CSporkMessage}
    {st : SporkRegistry} (hv : v m = true)
    (hd : (alistFind m.hashKey st.mapSporks).isSome = false)
    (ha : alistFind m.nSporkID st.mapSporksActive = none) :
    ProcessSpork v st m =
      (⟨(m.hashKey, m) :: st.mapSporks, (m.nSporkID, m) :: st.mapSporksActive⟩,
        .accepted) := by
  simp [ProcessSpork, hv, hd, ha]

theorem processSpork_fresh_newer {v : CSporkMessage → Bool} {m cur : CSporkMessage}
    {st : SporkRegistry} (hv : v m = true)
    (hd : (alistFind m.hashKey st.mapSporks).isSome = false)
    (ha : alistFind m.nSporkID st.mapSporksActive = some cur)
    (ht : cur.nTimeSigned < m.nTimeSigned) :
    ProcessSpork v st m =
      (⟨(m.hashKey, m) :: st.mapSporks, (m.nSporkID, m) :: st.mapSporksActive⟩,
        .accepted) := by
  simp [ProcessSpork, hv, hd, ha, ht]

theorem processSpork_fresh_stale {v : CSporkMessage → Bool} {m cur : CSporkMessage}
    {st : SporkRegistry} (hv : v m = true)
    (hd : (alistFind m.hashKey st.mapSporks).isSome = false)
    (ha : alistFind m.nSporkID st.mapSporksActive = some cur)
    (ht : ¬ cur.nTimeSigned < m.nTimeSigned) :
    ProcessSpork v st m =
      (⟨(m.hashKey, m) :: st.mapSporks, st.mapSporksActive⟩, .ignoredStale) := by
  simp [ProcessSpork, hv, hd, ha, ht]

theorem optTimeLE_refl (a : Option Int) : optTimeLE a a = true := by
  cases a <;> simp [optTimeLE]

theorem activeTime_mk (id : Int) (seen : List ((Int × Int × Int) × CSporkMessage))
    (active : List (Int × CSporkMessage)) :
    activeTime id ⟨seen, active⟩ = (alistFind id active).map CSporkMessage.nTimeSigned :=
  rfl

/-- C1: an incoming spork message whose signature does not verify is dropped
with no effect: the registry (both `mapSporks` and `mapSporksActive`) is left
unchanged, the message does not appear in either map if it was not there
before, and the message is not relayed. -/
theorem spork_invalid_signature_no_effect (v : CSporkMessage → Bool)
    (st : SporkRegistry) (m : CSporkMessage) (hv : v m = false) :
    (ProcessSpork v st m).1 = st ∧
    relays (ProcessSpork v st m).2 = false ∧
    (alistFind m.hashKey st.mapSporks = none →
      alistFind m.hashKey (ProcessSpork v st m).1.mapSporks = none) ∧
    (alistFind m.nSporkID st.mapSporksActive = none →
      alistFind m.nSporkID (ProcessSpork v st m).1.mapSporksActive = none) := by
  rw [processSpork_invalid st hv]
  exact ⟨rfl, rfl, fun h => h, fun h => h⟩

/-- Witness for C1 at a concrete input: a never-verifying key, the empty
registry, and an arbitrary message. -/
theorem spork_invalid_signature_no_effect_witness :
    (ProcessSpork (fun _ => false) SporkRegistry.empty ⟨[1], 10001, 0, 5⟩).1 =
      SporkRegistry.empty :=
  (spork_invalid_signature_no_effect (fun _ => false) SporkRegistry.empty
    ⟨[1], 10001, 0, 5⟩ rfl).1

/-- C2: the `timeSigned` of the active entry for any id never decreases across
a processing step, and a validly signed message that is not strictly newer
than the active entry for its id ends up in the seen map but leaves the
active map untouched. -/
theorem spork_active_monotone_stale_kept (v : CSporkMessage → Bool)
    (st : SporkRegistry) (m : CSporkMessage) (id : Int) :
    optTimeLE (activeTime id st) (activeTime id (ProcessSpork v st m).1) = true ∧
    (v m = true →
      ∀ cur, alistFind m.nSporkID st.mapSporksActive = some cur →
        m.nTimeSigned ≤ cur.nTimeSigned →
        (ProcessSpork v st m).1.mapSporksActive = st.mapSporksActive ∧
        (alistFind m.hashKey (ProcessSpork v st m).1.mapSporks).isSome = true) := by
  by_cases hv : v m = false
  · rw [processSpork_invalid st hv]
    refine ⟨optTimeLE_refl _, fun hv2 => ?_⟩
    rw [hv] at hv2; cases hv2
  · have hv2 : v m = true := by revert hv; cases v m <;> simp
    by_cases hd : (alistFind m.hashKey st.mapSporks).isSome = true
    · rw [processSpork_dup hv2 hd]
      exact ⟨optTimeLE_refl _, fun _ _ _ _ => ⟨rfl, hd⟩⟩
    · have hd2 : (alistFind m.hashKey st.mapSporks).isSome = false := by
        revert hd; cases (alistFind m.hashKey st.mapSporks).isSome <;> simp
      cases ha : alistFind m.nSporkID st.mapSporksActive with
      | none =>
          rw [processSpork_fresh_first hv2 hd2 ha]
          constructor
          · by_cases hid : m.nSporkID = id
            · subst hid
              simp [activeTime, alistFind_cons, ha, optTimeLE]
            · simp only [activeTime, alistFind_cons, hid, if_false]
              exact optTimeLE_refl _
          · intro _ cur hcur
            cases hcur
      | some cur =>
          by_cases ht : cur.nTimeSigned < m.nTimeSigned
          · rw [processSpork_fresh_newer hv2 hd2 ha ht]
            constructor
            · by_cases hid : m.nSporkID = id
              · subst hid
                simp [activeTime, alistFind_cons, ha, optTimeLE]
                omega
              · simp only [activeTime, alistFind_cons, hid, if_false]
                exact optTimeLE_refl _
            · intro _ cur₀ hcur₀ hle
              cases hcur₀
              exact absurd hle (by omega)
          · rw [processSpork_fresh_stale hv2 hd2 ha ht]
            refine ⟨optTimeLE_refl _, fun _ _ _ _ => ⟨rfl, ?_⟩⟩
            simp [alistFind_cons]

/-- Witness for C2 at a concrete input: a registry whose active entry for
spork id 10001 is at time 10, receiving a valid message at time 7. -/
theorem spork_active_monotone_stale_kept_witness :
    ((ProcessSpork (fun _ => true)
        ⟨[((10001, 0, 10), ⟨[2], 10001, 0, 10⟩)], [(10001, ⟨[2], 10001, 0, 10⟩)]⟩
        ⟨[3], 10001, 0, 7⟩).1.mapSporksActive = [(10001, ⟨[2], 10001, 0, 10⟩)]) ∧
    (alistFind (10001, 0, 7)
      (ProcessSpork (fun _ => true)
        ⟨[((10001, 0, 10), ⟨[2], 10001, 0, 10⟩)], [(10001, ⟨[2], 10001, 0, 10⟩)]⟩
        ⟨[3], 10001, 0, 7⟩).1.mapSporks).isSome = true :=
  (spork_active_monotone_stale_kept (fun _ => true)
    ⟨[((10001, 0, 10), ⟨[2], 10001, 0, 10⟩)], [(10001, ⟨[2], 10001, 0, 10⟩)]⟩
    ⟨[3], 10001, 0, 7⟩ 10001).2 rfl ⟨[2], 10001, 0, 10⟩ rfl (by decide)

/-! ## Convergence of the active map -/

/-- Exhaustive case analysis of one processing step. -/
theorem processSpork_cases (v : CSporkMessage → Bool) (st : SporkRegistry)
    (m : CSporkMessage) :
    (v m = false ∧ ProcessSpork v st m = (st, .droppedInvalid)) ∨
    (v m = true ∧ (alistFind m.hashKey st.mapSporks).isSome = true ∧
      ProcessSpork v st m = (st, .ignoredDuplicate)) ∨
    (v m = true ∧ (alistFind m.hashKey st.mapSporks).isSome = false ∧
      (∃ cur, alistFind m.nSporkID st.mapSporksActive = some cur ∧
        m.nTimeSigned ≤ cur.nTimeSigned) ∧
      ProcessSpork v st m =
        (⟨(m.hashKey, m) :: st.mapSporks, st.mapSporksActive⟩, .ignoredStale)) ∨
    (v m = true ∧ (alistFind m.hashKey st.mapSporks).isSome = false ∧
      (alistFind m.nSporkID st.mapSporksActive = none ∨
        ∃ cur, alistFind m.nSporkID st.mapSporksActive = some cur ∧
          cur.nTimeSigned < m.nTimeSigned) ∧
      ProcessSpork v st m =
        (⟨(m.hashKey, m) :: st.mapSporks, (m.nSporkID, m) :: st.mapSporksActive⟩,
          .accepted)) := by
  by_cases hv : v m = false
  · exact Or.inl ⟨hv, processSpork_invalid st hv⟩
  · have hv2 : v m = true := by revert hv; cases v m <;> simp
    by_cases hd : (alistFind m.hashKey st.mapSporks).isSome = true
    · exact Or.inr (Or.inl ⟨hv2, hd, processSpork_dup hv2 hd⟩)
    · have hd2 : (alistFind m.hashKey st.mapSporks).isSome = false := by
        revert hd; cases (alistFind m.hashKey st.mapSporks).isSome <;> simp
      cases ha : alistFind m.nSporkID st.mapSporksActive with
      | none =>
          exact Or.inr (Or.inr (Or.inr ⟨hv2, hd2, Or.inl rfl,
            processSpork_fresh_first hv2 hd2 ha⟩))
      | some cur =>
          by_cases ht : cur.nTimeSigned < m.nTimeSigned
          · exact Or.inr (Or.inr (Or.inr ⟨hv2, hd2, Or.inr ⟨cur, rfl, ht⟩,
              processSpork_fresh_newer hv2 hd2 ha ht⟩))
          · exact Or.inr (Or.inr (Or.inl ⟨hv2, hd2, ⟨cur, rfl, by omega⟩,
              processSpork_fresh_stale hv2 hd2 ha ht⟩))

/-- A step that is not accepted never changes the active map. -/
theorem step_not_accepted {v : CSporkMessage → Bool} {st : SporkRegistry}
    {m : CSporkMessage} (h : (ProcessSpork v st m).2 ≠ .accepted) (id : Int) :
    activeTime id (ProcessSpork v st m).1 = activeTime id st := by
  rcases processSpork_cases v st m with ⟨_, he⟩ | ⟨_, _, he⟩ | ⟨_, _, _, he⟩ |
    ⟨_, _, _, he⟩
  · rw [he]
  · rw [he]
  · rw [he]; rfl
  · rw [he] at h; simp at h

/-- An accepted step installs exactly the timestamp of the message, and that
timestamp dominates the previous active timestamp for that id. -/
theorem step_accepted {v : CSporkMessage → Bool} {st : SporkRegistry}
    {m : CSporkMessage} (h : (ProcessSpork v st m).2 = .accepted) :
    activeTime m.nSporkID (ProcessSpork v st m).1 = some m.nTimeSigned ∧
    optMax (activeTime m.nSporkID st) (some m.nTimeSigned) = some m.nTimeSigned := by
  rcases processSpork_cases v st m with ⟨_, he⟩ | ⟨_, _, he⟩ | ⟨_, _, _, he⟩ |
    ⟨_, _, hcur, he⟩
  · rw [he] at h; simp at h
  · rw [he] at h; simp at h
  · rw [he] at h; simp at h
  · refine ⟨?_, ?_⟩
    · rw [he]; simp [activeTime, alistFind_cons]
    · rcases hcur with hnone | ⟨cur, hsome, hlt⟩
      · simp [activeTime, hnone, optMax]
      · simp [activeTime, hsome, optMax, max_eq_right (le_of_lt hlt)]

/-- After processing a list of messages all for id `id`, the active timestamp
is the maximum of the initial active timestamp and the timestamps of the
accepted messages. -/
theorem processList_accepted_max (v : CSporkMessage → Bool) (id : Int)
    (l : List CSporkMessage) :
    ∀ st : SporkRegistry, (∀ m ∈ l, m.nSporkID = id) →
      activeTime id (processSporkList v st l) =
        optMax (activeTime id st) (listMax (acceptedTimes v st l)) := by
  induction l with
  | nil =>
      intro st _
      simp only [processSporkList, List.foldl_nil, acceptedTimes, listMax]
      cases activeTime id st <;> rfl
  | cons m rest ih =>
      intro st hall
      have hid : m.nSporkID = id := hall m (List.mem_cons_self _ _)
      have hrest : ∀ x ∈ rest, x.nSporkID = id :=
        fun x hx => hall x (List.mem_cons_of_mem _ hx)
      have hunfold : processSporkList v st (m :: rest) =
          processSporkList v (ProcessSpork v st m).1 rest := rfl
      by_cases hacc : (ProcessSpork v st m).2 = .accepted
      · have hstep := step_accepted hacc
        rw [hid] at hstep
        have haccts : acceptedTimes v st (m :: rest) =
            m.nTimeSigned :: acceptedTimes v (ProcessSpork v st m).1 rest := by
          simp [acceptedTimes, hacc]
        rw [hunfold, haccts, ih _ hrest, hstep.1, listMax_cons, ← optMax_assoc,
          hstep.2]
      · have haccts : acceptedTimes v st (m :: rest) =
            acceptedTimes v (ProcessSpork v st m).1 rest := by
          simp [acceptedTimes, hacc]
        rw [hunfold, haccts, ih _ hrest, step_not_accepted hacc]

/-- Registry invariant for a run of same-id messages: every seen entry is
keyed by its own content hash and carries that id, and the active timestamp
is the maximum timestamp among the seen entries. -/
def RegInv (id : Int) (st : SporkRegistry) : Prop :=
  (∀ p ∈ st.mapSporks, p.1 = p.2.hashKey ∧ p.2.nSporkID = id) ∧
  activeTime id st = listMax (st.mapSporks.map (fun p => p.2.nTimeSigned))

theorem regInv_empty (id : Int) : RegInv id SporkRegistry.empty :=
  ⟨fun p hp => absurd hp (by simp [SporkRegistry.empty]), rfl⟩

/-- One valid same-id step preserves the invariant, and the new active
timestamp is the max of the old one and the incoming timestamp. -/
theorem step_inv {v : CSporkMessage → Bool} {st : SporkRegistry}
    {m : CSporkMessage} {id : Int} (hinv : RegInv id st) (hv : v m = true)
    (hid : m.nSporkID = id) :
    RegInv id (ProcessSpork v st m).1 ∧
    activeTime id (ProcessSpork v st m).1 =
      optMax (activeTime id st) (some m.nTimeSigned) := by
  obtain ⟨hkeys, hmax⟩ := hinv
  rcases processSpork_cases v st m with ⟨hv0, _⟩ | ⟨_, hdup, he⟩ |
    ⟨_, _, ⟨cur, hcur, hle⟩, he⟩ | ⟨_, _, hcur, he⟩
  · rw [hv0] at hv; cases hv
  · -- duplicate: no state change; the incoming time is already among the seen
    rw [he]
    refine ⟨⟨hkeys, hmax⟩, ?_⟩
    obtain ⟨m', hm'⟩ := Option.isSome_iff_exists.mp hdup
    have hmem := alistFind_mem hm'
    obtain ⟨hkey, _⟩ := hkeys _ hmem
    have htime : m'.nTimeSigned = m.nTimeSigned := by
      simp [CSporkMessage.hashKey] at hkey
      exact hkey.2.2.symm
    have htmem : m.nTimeSigned ∈ st.mapSporks.map (fun p => p.2.nTimeSigned) := by
      rw [← htime]
      exact List.mem_map_of_mem _ hmem
    cases hact : activeTime id st with
    | none =>
        rw [hact] at hmax
        rw [listMax_eq_none hmax.symm] at htmem
        cases htmem
    | some M =>
        rw [hact] at hmax
        have hle2 : m.nTimeSigned ≤ M := listMax_le htmem hmax.symm
        simp [optMax, max_eq_left hle2]
  · -- stale: seen grows, active untouched
    rw [he]
    have hact : activeTime id st = some cur.nTimeSigned := by
      rw [← hid]; simp [activeTime, hcur]
    have hact2 : activeTime id
        (⟨(m.hashKey, m) :: st.mapSporks, st.mapSporksActive⟩ : SporkRegistry) =
        some cur.nTimeSigned := by
      rw [← hid]; simp [activeTime, hcur]
    refine ⟨⟨?_, ?_⟩, ?_⟩
    · intro p hp
      rcases List.mem_cons.mp hp with rfl | hp2
      · exact ⟨rfl, hid⟩
      · exact hkeys _ hp2
    · rw [hact2, List.map_cons, listMax_cons, ← hmax, hact]
      simp [optMax, max_eq_right hle]
    · rw [hact2, hact]
      simp [optMax, max_eq_left hle]
  · -- accepted: seen grows, active overwritten with the strictly newer time
    rw [he]
    have hact2 : activeTime id
        (⟨(m.hashKey, m) :: st.mapSporks,
          (m.nSporkID, m) :: st.mapSporksActive⟩ : SporkRegistry) =
        some m.nTimeSigned := by
      rw [← hid]; simp [activeTime, alistFind_cons]
    refine ⟨⟨?_, ?_⟩, ?_⟩
    · intro p hp
      rcases List.mem_cons.mp hp with rfl | hp2
      · exact ⟨rfl, hid⟩
      · exact hkeys _ hp2
    · rw [hact2, List.map_cons, listMax_cons, ← hmax]
      rcases hcur with hnone | ⟨cur, hsome, hlt⟩
      · have : activeTime id st = none := by rw [← hid]; simp [activeTime, hnone]
        rw [this]; rfl
      · have : activeTime id st = some cur.nTimeSigned := by
          rw [← hid]; simp [activeTime, hsome]
        rw [this]
        simp [optMax, max_eq_left (le_of_lt hlt)]
    · rcases hcur with hnone | ⟨cur, hsome, hlt⟩
      · have : activeTime id st = none := by rw [← hid]; simp [activeTime, hnone]
        rw [hact2, this]; rfl
      · have : activeTime id st = some cur.nTimeSigned := by
          rw [← hid]; simp [activeTime, hsome]
        rw [hact2, this]
        simp [optMax, max_eq_right (le_of_lt hlt)]

/-- Processing a list of valid same-id messages from an invariant-satisfying
state drives the active timestamp to the max of the initial timestamp and all
incoming timestamps. -/
theorem processList_inv_max {v : CSporkMessage → Bool} {id : Int}
    (l : List CSporkMessage) :
    ∀ st : SporkRegistry, RegInv id st →
      (∀ m ∈ l, v m = true ∧ m.nSporkID = id) →
      activeTime id (processSporkList v st l) =
        optMax (activeTime id st) (listMax (l.map (fun m => m.nTimeSigned))) := by
  induction l with
  | nil =>
      intro st _ _
      simp only [processSporkList, List.foldl_nil, List.map_nil, listMax]
      cases activeTime id st <;> rfl
  | cons m rest ih =>
      intro st hinv hall
      have hm := hall m (List.mem_cons_self _ _)
      have hrest : ∀ x ∈ rest, v x = true ∧ x.nSporkID = id :=
        fun x hx => hall x (List.mem_cons_of_mem _ hx)
      have hstep := step_inv hinv hm.1 hm.2
      have hunfold : processSporkList v st (m :: rest) =
          processSporkList v (ProcessSpork v st m).1 rest := rfl
      rw [hunfold, ih _ hstep.1 hrest, hstep.2, List.map_cons, listMax_cons,
        ← optMax_assoc]

/-- C3: for any nonempty sequence of validly signed messages for the same
spork id, processing the whole sequence from a fresh registry leaves the
active entry at the maximum `timeSigned` of the sequence; that maximum also
equals the maximum over the messages that were accepted, and the final active
timestamp is the same for every arrival order. -/
theorem spork_order_independent_convergence (v : CSporkMessage → Bool)
    (id : Int) (l : List CSporkMessage) (hne : l ≠ [])
    (hall : ∀ m ∈ l, v m = true ∧ m.nSporkID = id) :
    ∃ M : Int,
      activeTime id (processSporkList v SporkRegistry.empty l) = some M ∧
      listMax (l.map (fun m => m.nTimeSigned)) = some M ∧
      listMax (acceptedTimes v SporkRegistry.empty l) = some M ∧
      ∀ l', l.Perm l' →
        activeTime id (processSporkList v SporkRegistry.empty l') = some M := by
  cases hmaxl : listMax (l.map (fun m => m.nTimeSigned)) with
  | none =>
      exact absurd (List.map_eq_nil_iff.mp (listMax_eq_none hmaxl)) hne
  | some M =>
      have hmain := processList_inv_max l SporkRegistry.empty (regInv_empty id) hall
      have hempty : activeTime id SporkRegistry.empty = none := rfl
      rw [hempty, hmaxl] at hmain
      have hactive : activeTime id (processSporkList v SporkRegistry.empty l) =
          some M := hmain
      have hacc := processList_accepted_max v id l SporkRegistry.empty
        (fun m hm => (hall m hm).2)
      rw [hempty, hactive] at hacc
      refine ⟨M, hactive, rfl, hacc.symm, ?_⟩
      intro l' hperm
      have hall' : ∀ m ∈ l', v m = true ∧ m.nSporkID = id :=
        fun m hm => hall m (hperm.mem_iff.mpr hm)
      have hmain' := processList_inv_max l' SporkRegistry.empty
        (regInv_empty id) hall'
      have hmaxl' : listMax (l'.map (fun m => m.nTimeSigned)) = some M := by
        rw [← listMax_perm (hperm.map (fun m => m.nTimeSigned))]
        exact hmaxl
      rw [hempty, hmaxl'] at hmain'
      exact hmain'

/-- Witness for C3: two valid messages for spork id 10001 with timestamps 7
and 10, in either order, converge on timestamp 10. -/
theorem spork_order_independent_convergence_witness :
    ∃ M : Int,
      activeTime 10001 (processSporkList (fun _ => true) SporkRegistry.empty
        [⟨[3], 10001, 0, 7⟩, ⟨[2], 10001, 1, 10⟩]) = some M ∧
      listMax ([⟨[3], 10001, 0, 7⟩, ⟨[2], 10001, 1, 10⟩].map
        (fun m : CSporkMessage => m.nTimeSigned)) = some M ∧
      listMax (acceptedTimes (fun _ => true) SporkRegistry.empty
        [⟨[3], 10001, 0, 7⟩, ⟨[2], 10001, 1, 10⟩]) = some M ∧
      ∀ l', List.Perm [⟨[3], 10001, 0, 7⟩, ⟨[2], 10001, 1, 10⟩] l' →
        activeTime 10001 (processSporkList (fun _ => true)
          SporkRegistry.empty l') = some M :=
  spork_order_independent_convergence (fun _ => true) 10001
    [⟨[3], 10001, 0, 7⟩, ⟨[2], 10001, 1, 10⟩] (by decide)
    (by intro m hm; simp at hm; rcases hm with rfl | rfl <;> exact ⟨rfl, rfl⟩)

/-! ## Deprecation enforcement (modelled from the spec and the unit tests in
src/src/gtest/test_deprecation.cpp) -/

/-- Decimal digit characters of a natural number, most significant first. -/
def natChars (n : Nat) : List Char :=
  if h : n < 10 then [Char.ofNat (48 + n)]
  else natChars (n / 10) ++ [Char.ofNat (48 + n % 10)]
decreasing_by
  exact Nat.div_lt_self (by omega) (by omega)

/-- Decimal rendering of a signed height, as `%d` in `strprintf` produces. -/
def intChars (x : Int) : List Char :=
  if x < 0 then Char.ofNat 45 :: natChars (-x).toNat else natChars x.toNat

/-- Modelled from the spec: the declared shell-safe character set accepted by
the sanitizer applied to `-alertnotify` status messages (the sanitizer lives
in utilstrencodings.cpp, outside the excerpt): alphanumerics and the
punctuation listed. -/
def safeChars : List Char :=
  ("abcdefghijklmnopqrstuvwxyzABCDEFGHIJKLMNOPQRSTUVWXYZ0123456789 .,;-_/:?@()").data

def isSafeChar (c : Char) : Bool := safeChars.contains c

/-- Modelled from the spec: the sanitizer keeps exactly the characters of the
declared safe set. -/
def sanitizeString (s : List Char) : List Char := s.filter isSafeChar

/-- Networks relevant to deprecation enforcement. -/
inductive Network
  | main
  | testnet
  | regtest
deriving DecidableEq, Repr

/-- The two user-facing deprecation notifications. -/
inductive NotificationKind
  | warning
  | fatal
deriving DecidableEq, Repr

/-- Embedding of `CDeprecation` (deprecation.h, outside the excerpt): holds
the computed deprecation height. -/
structure CDeprecation where
  nDeprecationHeight : Int
deriving DecidableEq, Repr

/-- Modelled from the spec: the deprecation height derives from the
network-specific approximate release height plus a fixed grace window. -/
def CDeprecation.make (approxReleaseHeight window : Int) : CDeprecation :=
  ⟨approxReleaseHeight + window⟩

def CDeprecation.getDeprecationHeight (d : CDeprecation) : Int :=
  d.nDeprecationHeight

/-- Observable node state driven by the enforcer: the process shutdown flag,
the sticky notification flags, the message-box notifications emitted (most
recent first) and the sanitized payloads handed to the external
`-alertnotify` process (most recent first). -/
structure NodeState where
  fRequestShutdown : Bool
  warned : Bool
  errored : Bool
  uiNotifications : List NotificationKind
  notifierInvocations : List (List Char)
deriving DecidableEq, Repr

/-- Node state at process start. -/
def initialNodeState : NodeState := ⟨false, false, false, [], []⟩

/-- Status message for each notification, with the deprecation height
substituted for `%d`.  The warning text is the one asserted verbatim by
DeprecationTest.AlertNotify; the fatal text is modelled from the spec
(deprecation.cpp, which holds it, is outside the excerpt). -/
def deprecationMessage (k : NotificationKind) (h : Int) : List Char :=
  match k with
  | .warning =>
      ("This version will be deprecated at block height ").data ++ intChars h ++
        (", and will automatically shut down. You should upgrade to the latest version of Zcash.").data
  | .fatal =>
      ("This version has been deprecated as of block height ").data ++ intChars h ++
        (". You should upgrade to the latest version of Zcash.").data

/-- Modelled from the spec: `CDeprecation::EnforceNodeDeprecation`
(deprecation.cpp is outside the excerpt; only its unit tests are present).
Enforcement is skipped entirely off the main network.  At or past the
deprecation height the shutdown flag is always set, and the fatal
notification fires exactly at the deprecation height, or on the explicit
startup recheck — at most once per run via the sticky `errored` flag unless
the recheck flag is passed (spec sections 3 and 4.5).  Below the deprecation
height the warning fires when the gap equals the warn limit, or on the
startup recheck anywhere inside the warn window — at most once per run via
the sticky `warned` flag unless the recheck flag is passed.  Each fired
notification also invokes the external notifier with the sanitized status
message. -/
def EnforceNodeDeprecation (warnLimit : Int) (dep : CDeprecation)
    (network : Network) (nHeight : Int) (isStartupRecheck : Bool)
    (st : NodeState) : NodeState :=
  if network = Network.main then
    if dep.nDeprecationHeight - nHeight ≤ 0 then
      if (dep.nDeprecationHeight - nHeight = 0 ∨ isStartupRecheck = true) ∧
          (st.errored = false ∨ isStartupRecheck = true) then
        { st with errored := true,
                  fRequestShutdown := true,
                  uiNotifications := NotificationKind.fatal :: st.uiNotifications,
                  notifierInvocations :=
                    sanitizeString
                      (deprecationMessage .fatal dep.nDeprecationHeight) ::
                      st.notifierInvocations }
      else
        { st with fRequestShutdown := true }
    else
      if (dep.nDeprecationHeight - nHeight = warnLimit ∨
            (dep.nDeprecationHeight - nHeight < warnLimit ∧ isStartupRecheck = true)) ∧
          (st.warned = false ∨ isStartupRecheck = true) then
        { st with warned := true,
                  uiNotifications := NotificationKind.warning :: st.uiNotifications,
                  notifierInvocations :=
                    sanitizeString
                      (deprecationMessage .warning dep.nDeprecationHeight) ::
                      st.notifierInvocations }
      else st
  else st

/-! ## Step lemmas for the enforcer -/

theorem enforce_skip_exempt {net : Network} (wl : Int) (d : CDeprecation)
    (hnet : net ≠ Network.main) (h : Int) (su : Bool) (st : NodeState) :
    EnforceNodeDeprecation wl d net h su st = st := by
  simp [EnforceNodeDeprecation, hnet]

theorem enforce_far_quiet {wl : Int} {d : CDeprecation} {h : Int} {su : Bool}
    {st : NodeState} (h1 : 0 < d.nDeprecationHeight - h)
    (h2 : ¬((d.nDeprecationHeight - h = wl ∨
        (d.nDeprecationHeight - h < wl ∧ su = true)) ∧
      (st.warned = false ∨ su = true))) :
    EnforceNodeDeprecation wl d .main h su st = st := by
  unfold EnforceNodeDeprecation
  rw [if_pos rfl, if_neg (by omega), if_neg h2]

theorem enforce_warn_fire {wl : Int} {d : CDeprecation} {h : Int} {su : Bool}
    {st : NodeState} (h1 : 0 < d.nDeprecationHeight - h)
    (h2 : d.nDeprecationHeight - h = wl ∨
      (d.nDeprecationHeight - h < wl ∧ su = true))
    (h3 : st.warned = false ∨ su = true) :
    EnforceNodeDeprecation wl d .main h su st =
      { st with warned := true,
                uiNotifications := NotificationKind.warning :: st.uiNotifications,
                notifierInvocations :=
                  sanitizeString
                    (deprecationMessage .warning d.nDeprecationHeight) ::
                    st.notifierInvocations } := by
  unfold EnforceNodeDeprecation
  rw [if_pos rfl, if_neg (by omega), if_pos ⟨h2, h3⟩]

theorem enforce_fatal_fire {wl : Int} {d : CDeprecation} {h : Int} {su : Bool}
    {st : NodeState} (h1 : d.nDeprecationHeight - h ≤ 0)
    (h2 : d.nDeprecationHeight - h = 0 ∨ su = true)
    (h3 : st.errored = false ∨ su = true) :
    EnforceNodeDeprecation wl d .main h su st =
      { st with errored := true,
                fRequestShutdown := true,
                uiNotifications := NotificationKind.fatal :: st.uiNotifications,
                notifierInvocations :=
                  sanitizeString
                    (deprecationMessage .fatal d.nDeprecationHeight) ::
                    st.notifierInvocations } := by
  unfold EnforceNodeDeprecation
  rw [if_pos rfl, if_pos h1, if_pos ⟨h2, h3⟩]

theorem enforce_fatal_silent {wl : Int} {d : CDeprecation} {h : Int} {su : Bool}
    {st : NodeState} (h1 : d.nDeprecationHeight - h ≤ 0)
    (h2 : ¬((d.nDeprecationHeight - h = 0 ∨ su = true) ∧
      (st.errored = false ∨ su = true))) :
    EnforceNodeDeprecation wl d .main h su st =
      { st with fRequestShutdown := true } := by
  unfold EnforceNodeDeprecation
  rw [if_pos rfl, if_pos h1, if_neg h2]

/-! ## Safe-character lemmas -/

theorem digit_safe (d : Nat) (hd : d < 10) :
    isSafeChar (Char.ofNat (48 + d)) = true := by
  interval_cases d <;> decide

theorem natChars_safe (n : Nat) : (natChars n).all isSafeChar = true := by
  induction n using Nat.strong_induction_on with
  | _ n ih =>
      rw [natChars]
      split
      · simp [digit_safe n (by omega)]
      · rename_i hn
        rw [List.all_append]
        have h1 := ih (n / 10) (Nat.div_lt_self (by omega) (by omega))
        have h2 : isSafeChar (Char.ofNat (48 + n % 10)) = true :=
          digit_safe (n % 10) (Nat.mod_lt _ (by omega))
        simp [h1, h2]

theorem intChars_safe (x : Int) : (intChars x).all isSafeChar = true := by
  unfold intChars
  split
  · simp [natChars_safe]
    decide
  · exact natChars_safe _

theorem deprecationMessage_safe (k : NotificationKind) (h : Int) :
    (deprecationMessage k h).all isSafeChar = true := by
  cases k <;>
    simp only [deprecationMessage, List.all_append, Bool.and_eq_true] <;>
    exact ⟨⟨by decide, intChars_safe h⟩, by decide⟩

theorem sanitize_of_all_safe {s : List Char} (h : s.all isSafeChar = true) :
    sanitizeString s = s := by
  unfold sanitizeString
  apply List.filter_eq_self.mpr
  exact List.all_eq_true.mp h

/-! ## The ten unit-test scenarios of test_deprecation.cpp reproduced on the
model (fresh state per scenario, explicit warn limit 10 and deprecation
height 1000 standing in for the compiled-in constants) -/

theorem depTest_NonDeprecatedNodeKeepsRunning :
    EnforceNodeDeprecation 10 ⟨1000⟩ .main (1000 - 10 - 1) false initialNodeState =
      initialNodeState := by decide

theorem depTest_NodeNearDeprecationIsWarned :
    (EnforceNodeDeprecation 10 ⟨1000⟩ .main (1000 - 10) false
        initialNodeState).uiNotifications = [.warning] ∧
    (EnforceNodeDeprecation 10 ⟨1000⟩ .main (1000 - 10) false
        initialNodeState).fRequestShutdown = false := by
  constructor <;> decide

theorem depTest_NodeNearDeprecationWarningIsNotDuplicated :
    EnforceNodeDeprecation 10 ⟨1000⟩ .main (1000 - 10 + 1) false initialNodeState =
      initialNodeState := by decide

theorem depTest_NodeNearDeprecationWarningIsRepeatedOnStartup :
    (EnforceNodeDeprecation 10 ⟨1000⟩ .main (1000 - 10 + 1) true
        initialNodeState).uiNotifications = [.warning] ∧
    (EnforceNodeDeprecation 10 ⟨1000⟩ .main (1000 - 10 + 1) true
        initialNodeState).fRequestShutdown = false := by
  constructor <;> decide

theorem depTest_DeprecatedNodeShutsDown :
    (EnforceNodeDeprecation 10 ⟨1000⟩ .main 1000 false
        initialNodeState).uiNotifications = [.fatal] ∧
    (EnforceNodeDeprecation 10 ⟨1000⟩ .main 1000 false
        initialNodeState).fRequestShutdown = true := by
  constructor <;> decide

theorem depTest_DeprecatedNodeErrorIsNotDuplicated :
    (EnforceNodeDeprecation 10 ⟨1000⟩ .main (1000 + 1) false
        initialNodeState).uiNotifications = [] ∧
    (EnforceNodeDeprecation 10 ⟨1000⟩ .main (1000 + 1) false
        initialNodeState).fRequestShutdown = true := by
  constructor <;> decide

theorem depTest_DeprecatedNodeErrorIsRepeatedOnStartup :
    (EnforceNodeDeprecation 10 ⟨1000⟩ .main (1000 + 1) true
        initialNodeState).uiNotifications = [.fatal] ∧
    (EnforceNodeDeprecation 10 ⟨1000⟩ .main (1000 + 1) true
        initialNodeState).fRequestShutdown = true := by
  constructor <;> decide

theorem depTest_DeprecatedNodeIgnoredOnRegtest :
    EnforceNodeDeprecation 10 ⟨1000⟩ .regtest (1000 + 1) false initialNodeState =
      initialNodeState := by decide

theorem depTest_DeprecatedNodeIgnoredOnTestnet :
    EnforceNodeDeprecation 10 ⟨1000⟩ .testnet (1000 + 1) false initialNodeState =
      initialNodeState := by decide

theorem depTest_AlertNotify :
    (EnforceNodeDeprecation 10 ⟨1000⟩ .main (1000 - 10) false
        initialNodeState).notifierInvocations =
      [deprecationMessage .warning 1000] := by
  rw [enforce_warn_fire (by decide) (Or.inl (by decide)) (Or.inl rfl)]
  simp [initialNodeState,
    sanitize_of_all_safe (deprecationMessage_safe .warning 1000)]

/-! ## Claims about the deprecation enforcer -/

/-- State after step 1 of the deprecation scenario: enforce at
`H - warnLimit - 1` from a fresh run. -/
def depScenarioS1 (wl H : Int) : NodeState :=
  EnforceNodeDeprecation wl ⟨H⟩ .main (H - wl - 1) false initialNodeState

/-- State after step 2: enforce at `H - warnLimit`. -/
def depScenarioS2 (wl H : Int) : NodeState :=
  EnforceNodeDeprecation wl ⟨H⟩ .main (H - wl) false (depScenarioS1 wl H)

/-- State after step 3: enforce at `H`. -/
def depScenarioS3 (wl H : Int) : NodeState :=
  EnforceNodeDeprecation wl ⟨H⟩ .main H false (depScenarioS2 wl H)

/-- State after step 4: enforce at `H` a second time. -/
def depScenarioS4 (wl H : Int) : NodeState :=
  EnforceNodeDeprecation wl ⟨H⟩ .main H false (depScenarioS3 wl H)

/-- C5: with deprecation height `H` on the main network, enforcing at
`H - warnLimit - 1` produces no notification and no shutdown; at
`H - warnLimit` exactly one warning and no shutdown; at `H` exactly one
fatal notification and the shutdown flag; a second call at `H` adds no
notification while shutdown remains set. -/
theorem deprecation_scenario (wl H : Int) (hwl : 0 < wl) :
    depScenarioS1 wl H = initialNodeState ∧
    (depScenarioS2 wl H).uiNotifications = [.warning] ∧
    (depScenarioS2 wl H).fRequestShutdown = false ∧
    (depScenarioS3 wl H).uiNotifications = [.fatal, .warning] ∧
    (depScenarioS3 wl H).fRequestShutdown = true ∧
    (depScenarioS4 wl H).uiNotifications = (depScenarioS3 wl H).uiNotifications ∧
    (depScenarioS4 wl H).fRequestShutdown = true := by
  have e1 : depScenarioS1 wl H = initialNodeState := by
    unfold depScenarioS1
    exact enforce_far_quiet (by show 0 < H - (H - wl - 1); omega)
      (by
        intro hc
        rcases hc.1 with he | ⟨_, hsu⟩
        · revert he; show ¬ H - (H - wl - 1) = wl; omega
        · cases hsu)
  have e2 : depScenarioS2 wl H =
      { initialNodeState with
          warned := true,
          uiNotifications := [.warning],
          notifierInvocations := [sanitizeString (deprecationMessage .warning H)] } := by
    unfold depScenarioS2
    rw [e1]
    exact enforce_warn_fire (by show 0 < H - (H - wl); omega)
      (Or.inl (by show H - (H - wl) = wl; omega)) (Or.inl rfl)
  have e3 : depScenarioS3 wl H =
      { initialNodeState with
          warned := true,
          errored := true,
          fRequestShutdown := true,
          uiNotifications := [.fatal, .warning],
          notifierInvocations :=
            [sanitizeString (deprecationMessage .fatal H),
             sanitizeString (deprecationMessage .warning H)] } := by
    unfold depScenarioS3
    rw [e2]
    exact enforce_fatal_fire (by show H - H ≤ 0; omega)
      (Or.inl (by show H - H = 0; omega)) (Or.inl rfl)
  have e4 : depScenarioS4 wl H = depScenarioS3 wl H := by
    unfold depScenarioS4
    rw [e3]
    have := @enforce_fatal_silent wl ⟨H⟩ H false
      { initialNodeState with
          warned := true,
          errored := true,
          fRequestShutdown := true,
          uiNotifications := [.fatal, .warning],
          notifierInvocations :=
            [sanitizeString (deprecationMessage .fatal H),
             sanitizeString (deprecationMessage .warning H)] }
      (by show H - H ≤ 0; omega)
      (by intro hc; rcases hc.2 with he | hsu
          · cases he
          · cases hsu)
    rw [this]
  refine ⟨e1, ?_, ?_, ?_, ?_, ?_, ?_⟩
  · rw [e2]
  · rw [e2]; rfl
  · rw [e3]
  · rw [e3]
  · rw [e4]
  · rw [e4, e3]

/-- Witness for C5 at warn limit 10 and deprecation height 1000. -/
theorem deprecation_scenario_witness :
    depScenarioS1 10 1000 = initialNodeState ∧
    (depScenarioS2 10 1000).uiNotifications = [.warning] ∧
    (depScenarioS2 10 1000).fRequestShutdown = false ∧
    (depScenarioS3 10 1000).uiNotifications = [.fatal, .warning] ∧
    (depScenarioS3 10 1000).fRequestShutdown = true ∧
    (depScenarioS4 10 1000).uiNotifications = (depScenarioS3 10 1000).uiNotifications ∧
    (depScenarioS4 10 1000).fRequestShutdown = true :=
  deprecation_scenario 10 1000 (by decide)

/-- A run of the enforcer over a sequence of block heights on the main
network within one process run (no startup recheck). -/
def runEnforcement (wl : Int) (d : CDeprecation) (heights : List Int)
    (st : NodeState) : NodeState :=
  heights.foldl (fun s h => EnforceNodeDeprecation wl d Network.main h false s) st

/-- Exhaustive case analysis of one non-recheck enforcement step on the main
network. -/
theorem enforce_false_cases (wl : Int) (d : CDeprecation) (h : Int)
    (st : NodeState) :
    EnforceNodeDeprecation wl d .main h false st = st ∨
    (st.warned = false ∧
      EnforceNodeDeprecation wl d .main h false st =
        { st with warned := true,
                  uiNotifications := NotificationKind.warning :: st.uiNotifications,
                  notifierInvocations :=
                    sanitizeString
                      (deprecationMessage .warning d.nDeprecationHeight) ::
                      st.notifierInvocations }) ∨
    (st.errored = false ∧
      EnforceNodeDeprecation wl d .main h false st =
        { st with errored := true,
                  fRequestShutdown := true,
                  uiNotifications := NotificationKind.fatal :: st.uiNotifications,
                  notifierInvocations :=
                    sanitizeString
                      (deprecationMessage .fatal d.nDeprecationHeight) ::
                      st.notifierInvocations }) ∨
    EnforceNodeDeprecation wl d .main h false st =
      { st with fRequestShutdown := true } := by
  by_cases h1 : d.nDeprecationHeight - h ≤ 0
  · by_cases h2 : (d.nDeprecationHeight - h = 0 ∨ (false : Bool) = true) ∧
        (st.errored = false ∨ (false : Bool) = true)
    · refine Or.inr (Or.inr (Or.inl ⟨?_, enforce_fatal_fire h1 h2.1 h2.2⟩))
      rcases h2.2 with he | hsu
      · exact he
      · cases hsu
    · exact Or.inr (Or.inr (Or.inr (enforce_fatal_silent h1 h2)))
  · by_cases h2 : (d.nDeprecationHeight - h = wl ∨
        (d.nDeprecationHeight - h < wl ∧ (false : Bool) = true)) ∧
        (st.warned = false ∨ (false : Bool) = true)
    · refine Or.inr (Or.inl ⟨?_, enforce_warn_fire (by omega) h2.1 h2.2⟩)
      rcases h2.2 with he | hsu
      · exact he
      · cases hsu
    · exact Or.inl (enforce_far_quiet (by omega) h2)

/-- Invariant tying the sticky flags to the notification counts within a
non-recheck run. -/
def NotifyInv (st : NodeState) : Prop :=
  (st.warned = false → st.uiNotifications.count .warning = 0) ∧
  st.uiNotifications.count .warning ≤ 1 ∧
  (st.errored = false → st.uiNotifications.count .fatal = 0) ∧
  st.uiNotifications.count .fatal ≤ 1

theorem notifyInv_step (wl : Int) (d : CDeprecation) (h : Int) {st : NodeState}
    (hinv : NotifyInv st) :
    NotifyInv (EnforceNodeDeprecation wl d .main h false st) := by
  obtain ⟨hw0, hw1, he0, he1⟩ := hinv
  rcases enforce_false_cases wl d h st with he | ⟨hw, he⟩ | ⟨herr, he⟩ | he <;>
    rw [he]
  · exact ⟨hw0, hw1, he0, he1⟩
  · refine ⟨?_, ?_, ?_, ?_⟩
    · intro hc
      simp at hc
    · show (NotificationKind.warning :: st.uiNotifications).count .warning ≤ 1
      rw [List.count_cons_self, hw0 hw]
    · show st.errored = false →
        (NotificationKind.warning :: st.uiNotifications).count .fatal = 0
      intro herr2
      rw [List.count_cons_of_ne (by decide)]
      exact he0 herr2
    · show (NotificationKind.warning :: st.uiNotifications).count .fatal ≤ 1
      rw [List.count_cons_of_ne (by decide)]
      exact he1
  · refine ⟨?_, ?_, ?_, ?_⟩
    · show st.warned = false →
        (NotificationKind.fatal :: st.uiNotifications).count .warning = 0
      intro hwf
      rw [List.count_cons_of_ne (by decide)]
      exact hw0 hwf
    · show (NotificationKind.fatal :: st.uiNotifications).count .warning ≤ 1
      rw [List.count_cons_of_ne (by decide)]
      exact hw1
    · intro hc
      simp at hc
    · show (NotificationKind.fatal :: st.uiNotifications).count .fatal ≤ 1
      rw [List.count_cons_self, he0 herr]
  · exact ⟨hw0, hw1, he0, he1⟩

theorem runEnforcement_inv (wl : Int) (d : CDeprecation)
    (heights : List Int) :
    ∀ st : NodeState, NotifyInv st → NotifyInv (runEnforcement wl d heights st) := by
  induction heights with
  | nil => intro st hst; exact hst
  | cons h rest ih =>
      intro st hst
      exact ih _ (notifyInv_step wl d h hst)

/-- C6: within one process run each deprecation notification fires at most
once over any sequence of non-recheck enforcement calls, while a call with
the startup-recheck flag set re-emits the warning (anywhere inside the warn
window) or the fatal notification (at or past the deprecation height)
exactly once even from a state whose sticky flag is already set. -/
theorem deprecation_notify_once_unless_recheck (wl : Int) (d : CDeprecation) :
    (∀ heights : List Int,
      (runEnforcement wl d heights initialNodeState).uiNotifications.count
          .warning ≤ 1 ∧
      (runEnforcement wl d heights initialNodeState).uiNotifications.count
          .fatal ≤ 1) ∧
    (∀ (h : Int) (st : NodeState),
      0 < d.nDeprecationHeight - h → d.nDeprecationHeight - h ≤ wl →
      (EnforceNodeDeprecation wl d .main h true st).uiNotifications =
        .warning :: st.uiNotifications) ∧
    (∀ (h : Int) (st : NodeState), d.nDeprecationHeight - h ≤ 0 →
      (EnforceNodeDeprecation wl d .main h true st).uiNotifications =
        .fatal :: st.uiNotifications) := by
  refine ⟨?_, ?_, ?_⟩
  · intro heights
    have hinv := runEnforcement_inv wl d heights initialNodeState
      ⟨fun _ => rfl, by simp [initialNodeState], fun _ => rfl,
        by simp [initialNodeState]⟩
    exact ⟨hinv.2.1, hinv.2.2.2⟩
  · intro h st h1 h2
    have hcond : d.nDeprecationHeight - h = wl ∨
        (d.nDeprecationHeight - h < wl ∧ (true : Bool) = true) := by
      by_cases heq : d.nDeprecationHeight - h = wl
      · exact Or.inl heq
      · exact Or.inr ⟨by omega, rfl⟩
    rw [enforce_warn_fire h1 hcond (Or.inr rfl)]
  · intro h st h1
    rw [enforce_fatal_fire h1 (Or.inr rfl) (Or.inr rfl)]

/-- Witness for C6: a startup recheck re-emits the warning from an
already-warned state, and the fatal notification from an already-errored
state. -/
theorem deprecation_notify_once_unless_recheck_witness :
    (EnforceNodeDeprecation 10 ⟨100⟩ .main 95 true
        { initialNodeState with warned := true }).uiNotifications =
      .warning :: ({ initialNodeState with warned := true} :
        NodeState).uiNotifications ∧
    (EnforceNodeDeprecation 10 ⟨100⟩ .main 200 true
        { initialNodeState with errored := true }).uiNotifications =
      .fatal :: ({ initialNodeState with errored := true} :
        NodeState).uiNotifications :=
  ⟨(deprecation_notify_once_unless_recheck 10 ⟨100⟩).2.1 95
      { initialNodeState with warned := true } (by decide) (by decide),
   (deprecation_notify_once_unless_recheck 10 ⟨100⟩).2.2 200
      { initialNodeState with errored := true } (by decide)⟩

/-- C7: on an exempt network (testnet or regtest) enforcement is a no-op at
every height, with or without the startup recheck: no state change, hence no
shutdown request and no notification, ever. -/
theorem deprecation_exempt_network_noop (wl : Int) (d : CDeprecation)
    (net : Network) (hnet : net = Network.testnet ∨ net = Network.regtest)
    (h : Int) (su : Bool) (st : NodeState) :
    EnforceNodeDeprecation wl d net h su st = st := by
  rcases hnet with rfl | rfl <;>
    exact enforce_skip_exempt wl d (by decide) h su st

/-- Witness for C7: regtest far past the deprecation height. -/
theorem deprecation_exempt_network_noop_witness :
    EnforceNodeDeprecation 10 ⟨1000⟩ .regtest 2000 false initialNodeState =
      initialNodeState :=
  deprecation_exempt_network_noop 10 ⟨1000⟩ .regtest (Or.inr rfl) 2000 false
    initialNodeState

theorem sanitize_all_safe (s : List Char) :
    (sanitizeString s).all isSafeChar = true := by
  unfold sanitizeString
  rw [List.all_eq_true]
  intro c hc
  exact (List.mem_filter.mp hc).2

/-- C8: both deprecation status messages consist solely of characters from
the declared safe set, for every height, and consequently every payload the
enforcer hands to the external notifier is made of safe characters only. -/
theorem deprecation_notifier_payload_safe :
    (∀ (k : NotificationKind) (h : Int),
      (deprecationMessage k h).all isSafeChar = true) ∧
    (∀ (wl : Int) (d : CDeprecation) (net : Network) (h : Int) (su : Bool)
        (st : NodeState),
      st.notifierInvocations.all (fun msg => msg.all isSafeChar) = true →
      (EnforceNodeDeprecation wl d net h su st).notifierInvocations.all
        (fun msg => msg.all isSafeChar) = true) := by
  refine ⟨deprecationMessage_safe, ?_⟩
  intro wl d net h su st hst
  unfold EnforceNodeDeprecation
  split
  · split
    · split
      · simp [List.all_cons, sanitize_all_safe, hst]
      · exact hst
    · split
      · simp [List.all_cons, sanitize_all_safe, hst]
      · exact hst
  · exact hst

/-- Witness for C8: the main-network warning firing at the warn-limit
boundary from a fresh state leaves only safe notifier payloads. -/
theorem deprecation_notifier_payload_safe_witness :
    (EnforceNodeDeprecation 10 ⟨1000⟩ .main 990 false
        initialNodeState).notifierInvocations.all
      (fun msg => msg.all isSafeChar) = true :=
  deprecation_notifier_payload_safe.2 10 ⟨1000⟩ .main 990 false
    initialNodeState rfl

/-! ## Claim about the spork content hash -/

/-- C4: the content hash of a spork message is the digest of exactly the
triple `(nSporkID, nValue, nTimeSigned)` serialized in that fixed order, and
it does not depend on the signature: any two messages agreeing on the triple
(in particular, differing only in their signature bytes) have the same hash
under every digest function. -/
theorem spork_hash_ignores_signature (H : List Nat → Nat)
    (m₁ m₂ : CSporkMessage) (hid : m₁.nSporkID = m₂.nSporkID)
    (hval : m₁.nValue = m₂.nValue) (htime : m₁.nTimeSigned = m₂.nTimeSigned) :
    m₁.hashStream = ser32 m₁.nSporkID ++ ser64 m₁.nValue ++ ser64 m₁.nTimeSigned ∧
    m₁.GetHash H = m₂.GetHash H := by
  refine ⟨rfl, ?_⟩
  unfold CSporkMessage.GetHash CSporkMessage.hashStream
  rw [hid, hval, htime]

/-- Witness for C4: two messages with the same content triple but different
signature bytes hash identically under a concrete digest function. -/
theorem spork_hash_ignores_signature_witness :
    CSporkMessage.GetHash (fun bs => bs.foldl (fun a b => a * 256 + b) 0)
        ⟨[1, 2, 3], 10001, 5, 99⟩ =
      CSporkMessage.GetHash (fun bs => bs.foldl (fun a b => a * 256 + b) 0)
        ⟨[9], 10001, 5, 99⟩ :=
  (spork_hash_ignores_signature (fun bs => bs.foldl (fun a b => a * 256 + b) 0)
    ⟨[1, 2, 3], 10001, 5, 99⟩ ⟨[9], 10001, 5, 99⟩ rfl rfl rfl).2

/-! ## Wallet transaction records (src/src/qt/transactionrecord.cpp) -/

/-- Record types used by `TransactionRecord::decomposeTransaction` (the
declaring header transactionrecord.h is outside the excerpt; `Other` is the
default of a fresh record). -/
inductive TxRecordType
  | Other
  | Generated
  | SendToAddress
  | SendToSelf
  | SendToSelfWithMemo
  | SendToAddressWithMemo
  | RecvWithAddress
  | RecvWithAddressWithMemo
deriving DecidableEq, Repr

/-- Status codes assigned by `TransactionRecord::updateStatus`. -/
inductive TxStatusCode
  | OpenUntilBlock
  | OpenUntilDate
  | Offline
  | Unconfirmed
  | Confirming
  | Conflicted
  | Confirmed
  | Immature
  | MaturesWarning
  | NotAccepted
deriving DecidableEq, Repr

/-- Embedding of `TransactionStatus`: the sort key keeps the four formatted
components `(height, coinbase, timeReceived, idx)` of the `strprintf`
template. -/
structure TransactionStatus where
  sortKey : Int × Nat × Nat × Int
  countsForBalance : Bool
  depth : Int
  cur_num_blocks : Int
  status : TxStatusCode
  open_for : Int
  matures_in : Int
  needsUpdate : Bool
deriving DecidableEq, Repr

/-- Status of a freshly constructed record. -/
def TransactionStatus.init : TransactionStatus :=
  ⟨(0, 0, 0, 0), false, 0, 0, .Unconfirmed, 0, 0, true⟩

/-- Embedding of `TransactionRecord` with the fields the excerpt assigns. -/
structure TransactionRecord where
  archiveType : Int
  hash : Nat
  time : Int
  spentFrom : String
  address : String
  memo : String
  debit : Int
  credit : Int
  idx : Int
  type : TxRecordType
  status : TransactionStatus
deriving DecidableEq, Repr

/-- A default-constructed `TransactionRecord()`. -/
def TransactionRecord.init : TransactionRecord :=
  ⟨0, 0, 0, "", "", "", 0, 0, 0, .Other, TransactionStatus.init⟩

/-- One entry of `arcTx.vTSend`. -/
structure TSendOutput where
  encodedAddress : String
  amount : Int
  vout : Int
deriving DecidableEq, Repr

/-- One entry of `arcTx.vZcReceived`. -/
structure ZcOutput where
  encodedAddress : String
  amount : Int
  jsOutIndex : Int
deriving DecidableEq, Repr

/-- One entry of `arcTx.vZsSend` or `arcTx.vZsReceived`. -/
structure ZsOutput where
  encodedAddress : String
  amount : Int
  shieldedOutputIndex : Int
  memoStr : String
deriving DecidableEq, Repr

/-- One entry of `arcTx.vTReceived`. -/
structure TRecvOutput where
  encodedAddress : String
  amount : Int
  vout : Int
deriving DecidableEq, Repr

/-- Embedding of the `RpcArcTransaction` fields read by
`decomposeTransaction`; `spentFrom` is the set of spending addresses
(membership mirrors `spentFrom.find(addr) != spentFrom.end()`). -/
structure RpcArcTransaction where
  archiveType : Int
  txid : Nat
  nTime : Int
  coinbase : Bool
  spentFrom : List String
  sproutValue : Int
  sproutValueSpent : Int
  vTSend : List TSendOutput
  vZcReceived : List ZcOutput
  vZsSend : List ZsOutput
  vTReceived : List TRecvOutput
  vZsReceived : List ZsOutput
deriving DecidableEq, Repr

/-- Loop state of `decomposeTransaction`: the two row lists and the running
`spendingAddress` local. -/
structure DecomposeAcc where
  parts : List TransactionRecord
  partsChange : List TransactionRecord
  spendingAddress : String
deriving DecidableEq, Repr

/-- The `vTSend` loop (transactionrecord.cpp lines 42-61). -/
def decomposeVTSend (arcTx : RpcArcTransaction) (acc : DecomposeAcc) :
    DecomposeAcc :=
  arcTx.vTSend.foldl
    (fun acc o =>
      let tx : TransactionRecord :=
        { TransactionRecord.init with
            archiveType := arcTx.archiveType,
            hash := arcTx.txid,
            time := arcTx.nTime,
            spentFrom := o.encodedAddress,
            address := o.encodedAddress,
            debit := o.amount,
            idx := o.vout }
      let change := decide (arcTx.spentFrom ≠ []) &&
        arcTx.spentFrom.contains o.encodedAddress
      if change = true then
        { acc with
            partsChange := acc.partsChange ++ [{ tx with type := .SendToSelf }],
            spendingAddress := o.encodedAddress }
      else
        { acc with
            parts := acc.parts ++ [{ tx with type := .SendToAddress }],
            spendingAddress := o.encodedAddress })
    acc

/-- The first `vZcReceived` loop, on the sending side (lines 64-84); also
accumulates `sproutValueReceived`. -/
def decomposeVZcSend (arcTx : RpcArcTransaction) (acc : DecomposeAcc) :
    DecomposeAcc × Int :=
  arcTx.vZcReceived.foldl
    (fun p o =>
      let tx : TransactionRecord :=
        { TransactionRecord.init with
            archiveType := arcTx.archiveType,
            hash := arcTx.txid,
            time := arcTx.nTime,
            spentFrom := p.1.spendingAddress,
            address := o.encodedAddress,
            credit := -o.amount,
            idx := o.jsOutIndex }
      let change := decide (arcTx.spentFrom ≠ []) &&
        arcTx.spentFrom.contains o.encodedAddress
      if change = true then
        ({ p.1 with
            partsChange := p.1.partsChange ++ [{ tx with type := .SendToSelf }] },
          p.2 + o.amount)
      else
        ({ p.1 with
            parts := p.1.parts ++ [{ tx with type := .SendToAddress }] },
          p.2 + o.amount))
    (acc, 0)

/-- The leftover private-sprout-value record (lines 86-96). -/
def sproutLeftoverRecord (arcTx : RpcArcTransaction)
    (spendingAddress : String) : TransactionRecord :=
  { TransactionRecord.init with
      archiveType := arcTx.archiveType,
      hash := arcTx.txid,
      time := arcTx.nTime,
      spentFrom := spendingAddress,
      address := "Private Sprout Address",
      credit := -arcTx.sproutValue - arcTx.sproutValueSpent,
      type := .SendToAddress }

/-- The `vZsSend` loop (lines 98-127). -/
def decomposeVZsSend (arcTx : RpcArcTransaction) (acc : DecomposeAcc) :
    DecomposeAcc :=
  arcTx.vZsSend.foldl
    (fun acc o =>
      let tx : TransactionRecord :=
        { TransactionRecord.init with
            archiveType := arcTx.archiveType,
            hash := arcTx.txid,
            time := arcTx.nTime,
            spentFrom := acc.spendingAddress,
            address := o.encodedAddress,
            credit := -o.amount,
            idx := o.shieldedOutputIndex,
            memo := if o.memoStr.length ≠ 0 then o.memoStr else "" }
      let change := decide (arcTx.spentFrom ≠ []) &&
        arcTx.spentFrom.contains o.encodedAddress
      if change = true then
        if o.memoStr.length = 0 then
          { acc with
              partsChange := acc.partsChange ++ [{ tx with type := .SendToSelf }] }
        else
          { acc with
              partsChange :=
                acc.partsChange ++ [{ tx with type := .SendToSelfWithMemo }] }
      else
        if o.memoStr.length = 0 then
          { acc with
              parts := acc.parts ++ [{ tx with type := .SendToAddress }] }
        else
          { acc with
              parts := acc.parts ++ [{ tx with type := .SendToAddressWithMemo }] })
    acc

/-- The `vTReceived` loop (lines 131-153). -/
def decomposeVTReceived (arcTx : RpcArcTransaction) (acc : DecomposeAcc) :
    DecomposeAcc :=
  arcTx.vTReceived.foldl
    (fun acc o =>
      let tx : TransactionRecord :=
        { TransactionRecord.init with
            archiveType := arcTx.archiveType,
            hash := arcTx.txid,
            time := arcTx.nTime,
            spentFrom := acc.spendingAddress,
            address := o.encodedAddress,
            debit := o.amount,
            idx := o.vout }
      let change := decide (arcTx.spentFrom ≠ []) &&
        arcTx.spentFrom.contains o.encodedAddress
      if change = true then
        { acc with
            partsChange := acc.partsChange ++ [{ tx with type := .SendToSelf }] }
      else
        if arcTx.coinbase = true then
          { acc with parts := acc.parts ++ [{ tx with type := .Generated }] }
        else
          { acc with
              parts := acc.parts ++ [{ tx with type := .RecvWithAddress }] })
    acc

/-- The second `vZcReceived` loop, on the receiving side (lines 156-174). -/
def decomposeVZcReceived (arcTx : RpcArcTransaction) (acc : DecomposeAcc) :
    DecomposeAcc :=
  arcTx.vZcReceived.foldl
    (fun acc o =>
      let tx : TransactionRecord :=
        { TransactionRecord.init with
            archiveType := arcTx.archiveType,
            hash := arcTx.txid,
            time := arcTx.nTime,
            spentFrom := acc.spendingAddress,
            address := o.encodedAddress,
            debit := o.amount,
            idx := o.jsOutIndex }
      let change := decide (arcTx.spentFrom ≠ []) &&
        arcTx.spentFrom.contains o.encodedAddress
      if change = true then
        { acc with
            partsChange := acc.partsChange ++ [{ tx with type := .SendToSelf }] }
      else
        { acc with
            parts := acc.parts ++ [{ tx with type := .RecvWithAddress }] })
    acc

/-- The `vZsReceived` loop (lines 176-206). -/
def decomposeVZsReceived (arcTx : RpcArcTransaction) (acc : DecomposeAcc) :
    DecomposeAcc :=
  arcTx.vZsReceived.foldl
    (fun acc o =>
      let tx : TransactionRecord :=
        { TransactionRecord.init with
            archiveType := arcTx.archiveType,
            hash := arcTx.txid,
            time := arcTx.nTime,
            spentFrom := acc.spendingAddress,
            address := o.encodedAddress,
            debit := o.amount,
            idx := o.shieldedOutputIndex,
            memo := if o.memoStr.length ≠ 0 then o.memoStr else "" }
      let change := decide (arcTx.spentFrom ≠ []) &&
        arcTx.spentFrom.contains o.encodedAddress
      if change = true then
        if o.memoStr.length = 0 then
          { acc with
              partsChange := acc.partsChange ++ [{ tx with type := .SendToSelf }] }
        else
          { acc with
              partsChange :=
                acc.partsChange ++ [{ tx with type := .SendToSelfWithMemo }] }
      else
        if o.memoStr.length = 0 then
          { acc with
              parts := acc.parts ++ [{ tx with type := .RecvWithAddress }] }
        else
          { acc with
              parts :=
                acc.parts ++ [{ tx with type := .RecvWithAddressWithMemo }] })
    acc

/-- The loop state after all five loops (and the sprout-leftover insertion)
of `decomposeTransaction` have run. -/
def decomposeAcc (arcTx : RpcArcTransaction) : DecomposeAcc :=
  let acc0 : DecomposeAcc := ⟨[], [], ""⟩
  let acc1 :=
    if arcTx.spentFrom ≠ [] then
      let a1 := decomposeVTSend arcTx acc0
      let p := decomposeVZcSend arcTx a1
      let a3 :=
        if arcTx.sproutValue - arcTx.sproutValueSpent - p.2 ≠ 0 then
          { p.1 with
              parts := p.1.parts ++ [sproutLeftoverRecord arcTx p.1.spendingAddress] }
        else p.1
      decomposeVZsSend arcTx a3
    else acc0
  decomposeVZsReceived arcTx
    (decomposeVZcReceived arcTx (decomposeVTReceived arcTx acc1))

/-- Embedding of `TransactionRecord::decomposeTransaction` (lines 33-213):
run the loops, then return the change rows only when no non-change row was
produced (lines 208-212). -/
def TransactionRecord.decomposeTransaction (arcTx : RpcArcTransaction) :
    List TransactionRecord :=
  if (decomposeAcc arcTx).parts.isEmpty then (decomposeAcc arcTx).partsChange
  else (decomposeAcc arcTx).parts

/-! ## updateStatus (transactionrecord.cpp lines 215-301) -/

/-- Chain-view inputs of `updateStatus`: the `mapBlockIndex` height of the
containing block (if found), the active chain height, and the current time. -/
structure ChainContext where
  blockIndexHeight : Option Int
  chainHeight : Int
  now : Int
deriving DecidableEq, Repr

/-- Wallet-transaction inputs of `updateStatus` (results of the `CWalletTx`
accessors it calls; the wallet lives outside the excerpt). -/
structure CWalletTx where
  nTimeReceived : Nat
  nLockTime : Nat
  isCoinBase : Bool
  isTrusted : Bool
  blocksToMaturity : Int
  depthInMainChain : Int
  isInMainChain : Bool
  requestCount : Int
  checkFinalTx : Bool
deriving DecidableEq, Repr

/-- `LOCKTIME_THRESHOLD` of the consensus headers. -/
def LOCKTIME_THRESHOLD : Nat := 500000000

/-- `TransactionRecord::RecommendedNumConfirmations` (declared in
transactionrecord.h, outside the excerpt; the conventional value 6). -/
def RecommendedNumConfirmations : Int := 6

/-- `std::numeric_limits<int>::max()`. -/
def INT_MAX : Int := 2147483647

/-- Embedding of `TransactionRecord::updateStatus`.  Note lines 232-233 of
the source: `countsForBalance` is first computed from `IsTrusted()` and
`GetBlocksToMaturity()` and then immediately reassigned to `true`. -/
def TransactionRecord.updateStatus (env : ChainContext) (wtx : CWalletTx)
    (rec : TransactionRecord) : TransactionRecord :=
  let sortKey : Int × Nat × Nat × Int :=
    ((match env.blockIndexHeight with
      | some ht => ht
      | none => INT_MAX),
     (if wtx.isCoinBase then 1 else 0),
     wtx.nTimeReceived,
     rec.idx)
  let st0 := { rec.status with sortKey := sortKey }
  let st1 := { st0 with
    countsForBalance := wtx.isTrusted && !(decide (wtx.blocksToMaturity > 0)) }
  let st2 := { st1 with countsForBalance := true }
  let st3 := { st2 with
    depth := wtx.depthInMainChain,
    cur_num_blocks := env.chainHeight }
  let st4 :=
    if wtx.checkFinalTx = false then
      if wtx.nLockTime < LOCKTIME_THRESHOLD then
        { st3 with
            status := .OpenUntilBlock,
            open_for := (wtx.nLockTime : Int) - env.chainHeight }
      else
        { st3 with status := .OpenUntilDate, open_for := (wtx.nLockTime : Int) }
    else if rec.type = .Generated then
      if wtx.blocksToMaturity > 0 then
        if wtx.isInMainChain then
          if env.now - (wtx.nTimeReceived : Int) > 2 * 60 ∧ wtx.requestCount = 0 then
            { st3 with status := .MaturesWarning, matures_in := wtx.blocksToMaturity }
          else
            { st3 with status := .Immature, matures_in := wtx.blocksToMaturity }
        else
          { st3 with status := .NotAccepted }
      else
        { st3 with status := .Confirmed }
    else
      if wtx.depthInMainChain < 0 then
        { st3 with status := .Conflicted }
      else if env.now - (wtx.nTimeReceived : Int) > 2 * 60 ∧ wtx.requestCount = 0 then
        { st3 with status := .Offline }
      else if wtx.depthInMainChain = 0 then
        { st3 with status := .Unconfirmed }
      else if wtx.depthInMainChain < RecommendedNumConfirmations then
        { st3 with status := .Confirming }
      else
        { st3 with status := .Confirmed }
  { rec with status := { st4 with needsUpdate := false } }

/-- C9: after `updateStatus`, `countsForBalance` is `true` for every input —
the trust/maturity computation of line 232 is unconditionally overwritten by
line 233, so untrusted and immature transactions also count for balance. -/
theorem updateStatus_countsForBalance_always_true (env : ChainContext)
    (wtx : CWalletTx) (rec : TransactionRecord) :
    (rec.updateStatus env wtx).status.countsForBalance = true := by
  unfold TransactionRecord.updateStatus
  repeat' split
  all_goals rfl

/-! ## Change rows versus non-change rows in decomposeTransaction -/

/-- A change row: one of the two self-send types; every row appended to
`partsChange` has one of these, every row appended to `parts` has neither. -/
def isChangeType (t : TxRecordType) : Bool :=
  match t with
  | .SendToSelf => true
  | .SendToSelfWithMemo => true
  | _ => false

/-- Invariant of the decomposition loops: `parts` holds only non-change rows
and `partsChange` only change rows. -/
def AccInv (acc : DecomposeAcc) : Prop :=
  (∀ r ∈ acc.parts, isChangeType r.type = false) ∧
  (∀ r ∈ acc.partsChange, isChangeType r.type = true)

theorem accInv_append_part {acc acc' : DecomposeAcc} (h : AccInv acc)
    {r : TransactionRecord} (hparts : acc'.parts = acc.parts ++ [r])
    (hchange : acc'.partsChange = acc.partsChange)
    (hr : isChangeType r.type = false) : AccInv acc' := by
  obtain ⟨hp, hc⟩ := h
  constructor
  · intro x hx
    rw [hparts] at hx
    rcases List.mem_append.mp hx with h1 | h2
    · exact hp x h1
    · rw [List.mem_singleton.mp h2]; exact hr
  · intro x hx
    rw [hchange] at hx
    exact hc x hx

theorem accInv_append_change {acc acc' : DecomposeAcc} (h : AccInv acc)
    {r : TransactionRecord} (hparts : acc'.parts = acc.parts)
    (hchange : acc'.partsChange = acc.partsChange ++ [r])
    (hr : isChangeType r.type = true) : AccInv acc' := by
  obtain ⟨hp, hc⟩ := h
  constructor
  · intro x hx
    rw [hparts] at hx
    exact hp x hx
  · intro x hx
    rw [hchange] at hx
    rcases List.mem_append.mp hx with h1 | h2
    · exact hc x h1
    · rw [List.mem_singleton.mp h2]; exact hr

theorem foldl_accInv {α : Type} {f : DecomposeAcc → α → DecomposeAcc}
    (hf : ∀ acc x, AccInv acc → AccInv (f acc x)) :
    ∀ (l : List α) (acc : DecomposeAcc), AccInv acc → AccInv (l.foldl f acc) := by
  intro l
  induction l with
  | nil => intro acc h; exact h
  | cons x xs ih => intro acc h; exact ih _ (hf acc x h)

theorem foldl_accInv_pair {α : Type}
    {f : DecomposeAcc × Int → α → DecomposeAcc × Int}
    (hf : ∀ p x, AccInv p.1 → AccInv (f p x).1) :
    ∀ (l : List α) (p : DecomposeAcc × Int), AccInv p.1 →
      AccInv (l.foldl f p).1 := by
  intro l
  induction l with
  | nil => intro p h; exact h
  | cons x xs ih => intro p h; exact ih _ (hf p x h)

theorem decomposeVTSend_inv (arcTx : RpcArcTransaction) {acc : DecomposeAcc}
    (h : AccInv acc) : AccInv (decomposeVTSend arcTx acc) := by
  refine foldl_accInv ?_ _ _ h
  intro acc o hacc
  dsimp only
  split
  · exact accInv_append_change hacc rfl rfl rfl
  · exact accInv_append_part hacc rfl rfl rfl

theorem decomposeVZcSend_inv (arcTx : RpcArcTransaction) {acc : DecomposeAcc}
    (h : AccInv acc) : AccInv (decomposeVZcSend arcTx acc).1 := by
  refine foldl_accInv_pair ?_ _ _ h
  intro p o hacc
  dsimp only
  split
  · exact accInv_append_change hacc rfl rfl rfl
  · exact accInv_append_part hacc rfl rfl rfl

theorem decomposeVZsSend_inv (arcTx : RpcArcTransaction) {acc : DecomposeAcc}
    (h : AccInv acc) : AccInv (decomposeVZsSend arcTx acc) := by
  refine foldl_accInv ?_ _ _ h
  intro acc o hacc
  dsimp only
  split
  · split
    · exact accInv_append_change hacc rfl rfl rfl
    · exact accInv_append_change hacc rfl rfl rfl
  · split
    · exact accInv_append_part hacc rfl rfl rfl
    · exact accInv_append_part hacc rfl rfl rfl

theorem decomposeVTReceived_inv (arcTx : RpcArcTransaction) {acc : DecomposeAcc}
    (h : AccInv acc) : AccInv (decomposeVTReceived arcTx acc) := by
  refine foldl_accInv ?_ _ _ h
  intro acc o hacc
  dsimp only
  split
  · exact accInv_append_change hacc rfl rfl rfl
  · split
    · exact accInv_append_part hacc rfl rfl rfl
    · exact accInv_append_part hacc rfl rfl rfl

theorem decomposeVZcReceived_inv (arcTx : RpcArcTransaction) {acc : DecomposeAcc}
    (h : AccInv acc) : AccInv (decomposeVZcReceived arcTx acc) := by
  refine foldl_accInv ?_ _ _ h
  intro acc o hacc
  dsimp only
  split
  · exact accInv_append_change hacc rfl rfl rfl
  · exact accInv_append_part hacc rfl rfl rfl

theorem decomposeVZsReceived_inv (arcTx : RpcArcTransaction) {acc : DecomposeAcc}
    (h : AccInv acc) : AccInv (decomposeVZsReceived arcTx acc) := by
  refine foldl_accInv ?_ _ _ h
  intro acc o hacc
  dsimp only
  split
  · split
    · exact accInv_append_change hacc rfl rfl rfl
    · exact accInv_append_change hacc rfl rfl rfl
  · split
    · exact accInv_append_part hacc rfl rfl rfl
    · exact accInv_append_part hacc rfl rfl rfl

theorem accInv_empty : AccInv ⟨[], [], ""⟩ :=
  ⟨fun r hr => absurd hr (by simp), fun r hr => absurd hr (by simp)⟩

theorem decomposeAcc_inv (arcTx : RpcArcTransaction) :
    AccInv (decomposeAcc arcTx) := by
  unfold decomposeAcc
  apply decomposeVZsReceived_inv
  apply decomposeVZcReceived_inv
  apply decomposeVTReceived_inv
  split
  · apply decomposeVZsSend_inv
    split
    · exact accInv_append_part
        (decomposeVZcSend_inv arcTx (decomposeVTSend_inv arcTx accInv_empty))
        rfl rfl rfl
    · exact decomposeVZcSend_inv arcTx (decomposeVTSend_inv arcTx accInv_empty)
  · exact accInv_empty

/-- C10: the decomposition returns a change row (`SendToSelf` or
`SendToSelfWithMemo`) only when it returns no non-change row: if any returned
row is a change row, every returned row is. -/
theorem decompose_change_excludes_nonchange (arcTx : RpcArcTransaction)
    (hchange : ∃ r ∈ TransactionRecord.decomposeTransaction arcTx,
      isChangeType r.type = true) :
    ∀ r' ∈ TransactionRecord.decomposeTransaction arcTx,
      isChangeType r'.type = true := by
  obtain ⟨r, hr, hrt⟩ := hchange
  have hinv := decomposeAcc_inv arcTx
  intro r' hr'
  unfold TransactionRecord.decomposeTransaction at hr hr'
  by_cases hp : (decomposeAcc arcTx).parts.isEmpty
  · rw [if_pos hp] at hr'
    exact hinv.2 r' hr'
  · rw [if_neg hp] at hr
    rw [hinv.1 r hr] at hrt
    cases hrt

/-- Witness for C10: a transaction whose only output goes back to a spending
address produces a single change row, and every returned row is a change
row. -/
theorem decompose_change_excludes_nonchange_witness :
    isChangeType ({ TransactionRecord.init with
        spentFrom := "a", address := "a", debit := 5,
        type := .SendToSelf } : TransactionRecord).type = true :=
  decompose_change_excludes_nonchange
    ⟨0, 0, 0, false, ["a"], 0, 0, [⟨"a", 5, 0⟩], [], [], [], []⟩
    ⟨{ TransactionRecord.init with
        spentFrom := "a", address := "a", debit := 5, type := .SendToSelf },
      by decide, rfl⟩
    { TransactionRecord.init with
        spentFrom := "a", address := "a", debit := 5, type := .SendToSelf }
    (by decide)

end Zero
